import Mathlib

/-!
Verification of the nwtrack transactional data-access layer.

Shallow embedding of the Python sources under `src/nwtrack/` (models.py,
mappers.py, repos.py, services.py, dbmanager.py, unitofwork.py).  SQLite
tables are modelled as Lean lists of row structures; statements become pure
functions on those lists; Python exceptions become an explicit error type.
-/

set_option autoImplicit false

namespace NWTrack

/--
Errors raised by the Python code, by Python exception class.
`valueError` covers `raise ValueError(msg)` (models.py, services.py),
`assertionError` covers failing `assert` statements (repos.py),
`keyError` covers a missing dictionary key `record[k]` (mappers.py),
`integrityError` covers `sqlite3.IntegrityError` from UNIQUE / FOREIGN KEY
constraint failures.  The spec's error taxonomy (§7) names these
`ValidationError` / `NotFoundError` / `InvariantViolation` / `MappingError` /
`ConstraintViolation`; no classes with those names exist in the code.
-/
inductive NwError where
  | valueError (msg : String)
  | assertionError (msg : String)
  | keyError (key : String)
  | integrityError (msg : String)
  deriving Repr, DecidableEq

/-- `models.Month`: a dataclass holding two Python `int` fields. -/
structure Month where
  year : Int
  month : Int
  deriving Repr, DecidableEq

/-- The validity condition checked by `Month.__init__` (models.py lines 14-20):
month in [1,12] and year >= 0. -/
def Month.Valid (m : Month) : Prop :=
  1 ≤ m.month ∧ m.month ≤ 12 ∧ 0 ≤ m.year

instance (m : Month) : Decidable m.Valid := by
  unfold Month.Valid; infer_instance

/-- `Month.__init__` (models.py lines 14-20): raises `ValueError` when
month is outside [1,12] or year is negative. -/
def Month.init (year month : Int) : Except NwError Month :=
  if month < 1 ∨ month > 12 then .error (.valueError s!"Invalid month: {month}")
  else if year < 0 then .error (.valueError s!"Invalid year: {year}")
  else .ok ⟨year, month⟩

/-- `Month.increment` (models.py lines 39-43).  The Python method builds the
result through `Month(...)`, re-running the constructor validation; for a
month field in [1,12] that validation passes, so the method is total here
(validity of the result is proved in `month_increment_correct`). -/
def Month.increment (m : Month) : Month :=
  if m.month = 12 then ⟨m.year + 1, 1⟩ else ⟨m.year, m.month + 1⟩

theorem Month.init_ok_iff (y mo : Int) (m : Month) :
    Month.init y mo = .ok m ↔ (m.year = y ∧ m.month = mo ∧ m.Valid) := by
  unfold Month.init Month.Valid
  constructor
  · intro h
    split at h
    · exact absurd h (by simp)
    · split at h
      · exact absurd h (by simp)
      · rename_i h1 h2
        push_neg at h1
        simp only [Except.ok.injEq] at h
        subst h
        refine ⟨rfl, rfl, ?_, ?_, ?_⟩ <;> dsimp only <;> omega
  · rintro ⟨hy, hmo, h1, h2, h3⟩
    subst hy hmo
    rw [if_neg (by omega), if_neg (by omega)]

theorem Month.increment_ne (m : Month) : m.increment ≠ m := by
  unfold Month.increment
  split
  · rename_i h
    intro hc
    have : m.year + 1 = m.year := congrArg Month.year hc
    omega
  · intro hc
    have : m.month + 1 = m.month := congrArg Month.month hc
    omega

/-- Decimal digit characters of a nonnegative integer, most significant first:
Python's rendering of `n ≥ 0` in a `"%d"`-style format. -/
def natDigits (n : Nat) : List Char :=
  if n = 0 then ['0']
  else ((Nat.digits 10 n).map Nat.digitChar).reverse

/-- The zero padding of Python's format specifier `{:0wd}` for nonnegative
values: pad with leading zeros up to width `w` (wider values are kept whole). -/
def padZeros (w : Nat) (cs : List Char) : List Char :=
  List.replicate (w - cs.length) '0' ++ cs

/-- `Month.__str__` (models.py lines 22-23): `f"{year:04d}-{month:02d}"`.
Python strings are modelled as `List Char`; the `Int.toNat` casts are exact
for the nonnegative fields of a valid month. -/
def Month.str (m : Month) : List Char :=
  padZeros 4 (natDigits m.year.toNat) ++ '-' :: padZeros 2 (natDigits m.month.toNat)

/-- Python's `s.split("-")`: splits at every dash, keeping empty parts. -/
def splitDash : List Char → List (List Char)
  | [] => [[]]
  | c :: rest =>
    match splitDash rest with
    | [] => [[]]
    | p :: ps => if c = '-' then [] :: p :: ps else (c :: p) :: ps

/-- Python `int(s)` restricted to nonempty all-digit strings — the only forms
occurring in canonical month strings (Python additionally accepts signs,
surrounding whitespace and underscores). -/
def pyParseInt (cs : List Char) : Except NwError Int :=
  if cs ≠ [] ∧ cs.all (fun c => c.isDigit) then
    .ok (Int.ofNat (cs.foldl (fun a c => a * 10 + (c.toNat - 48)) 0))
  else .error (.valueError "invalid literal for int() with base 10")

/-- `Month.parse` (models.py lines 28-37).  Python unpacks
`year, month = map(int, s.split("-"))` first — a part count other than two,
or a non-numeric part, raises `ValueError` right there — then re-checks the
format (a check that can no longer fail once the unpack succeeded), then
validates the ranges and builds the result through `Month.__init__`. -/
def Month.parse (cs : List Char) : Except NwError Month :=
  match splitDash cs with
  | [ys, ms] =>
    match pyParseInt ys, pyParseInt ms with
    | .ok y, .ok mo =>
      if mo < 1 ∨ mo > 12 then .error (.valueError s!"Invalid month: {mo}")
      else if y < 0 then .error (.valueError s!"Invalid year: {y}")
      else Month.init y mo
    | .error e, _ => .error e
    | _, .error e => .error e
  | _ => .error (.valueError "cannot unpack into year, month")

theorem digitChar_toNat {d : Nat} (h : d < 10) : (Nat.digitChar d).toNat = 48 + d := by
  interval_cases d <;> decide

theorem digitChar_isDigit {d : Nat} (h : d < 10) : (Nat.digitChar d).isDigit = true := by
  interval_cases d <;> decide

theorem natDigits_ne_nil (n : Nat) : natDigits n ≠ [] := by
  unfold natDigits
  split
  · simp
  · rename_i h
    simp [Nat.digits_ne_nil_iff_ne_zero.mpr h]

theorem natDigits_all_digit (n : Nat) : ∀ c ∈ natDigits n, c.isDigit = true := by
  unfold natDigits
  split
  · intro c hc; simp at hc; subst hc; decide
  · intro c hc
    simp only [List.mem_reverse, List.mem_map] at hc
    obtain ⟨d, hd, rfl⟩ := hc
    exact digitChar_isDigit (Nat.digits_lt_base (by norm_num) hd)

theorem foldl_digitChars (L : List Nat) (hL : ∀ d ∈ L, d < 10) (a : Nat) :
    List.foldl (fun a c => a * 10 + (c.toNat - 48)) a ((L.map Nat.digitChar).reverse)
      = a * 10 ^ L.length + Nat.ofDigits 10 L := by
  induction L generalizing a with
  | nil => simp [Nat.ofDigits_nil]
  | cons d L ih =>
    have hd : d < 10 := hL d (by simp)
    have hrest : ∀ x ∈ L, x < 10 := fun x hx => hL x (by simp [hx])
    simp only [List.map_cons, List.reverse_cons, List.foldl_append, List.foldl_cons,
      List.foldl_nil, ih hrest a, Nat.ofDigits_cons, List.length_cons]
    rw [digitChar_toNat hd, Nat.add_sub_cancel_left]
    ring

theorem foldl_natDigits (n : Nat) :
    List.foldl (fun a c => a * 10 + (c.toNat - 48)) 0 (natDigits n) = n := by
  unfold natDigits
  split
  · rename_i h; subst h; decide
  · rw [foldl_digitChars _ (fun d hd => Nat.digits_lt_base (by norm_num) hd) 0]
    simp [Nat.ofDigits_digits]

theorem pyParseInt_padZeros (w : Nat) (n : Nat) :
    pyParseInt (padZeros w (natDigits n)) = .ok (Int.ofNat n) := by
  unfold pyParseInt padZeros
  rw [if_pos]
  · congr 1
    rw [List.foldl_append]
    have hz : ∀ (k : Nat),
        List.foldl (fun a c => a * 10 + (c.toNat - 48)) 0 (List.replicate k '0') = 0 := by
      intro k
      induction k with
      | zero => rfl
      | succ k ih => simpa [List.replicate_succ] using ih
    rw [hz, foldl_natDigits]
  · constructor
    · have := natDigits_ne_nil n
      intro hc
      rcases List.append_eq_nil.mp hc with ⟨-, h2⟩
      exact this h2
    · rw [List.all_eq_true]
      intro c hc
      rcases List.mem_append.mp hc with h | h
      · have := List.eq_of_mem_replicate h
        subst this; decide
      · exact natDigits_all_digit n c h

theorem splitDash_ne_nil (cs : List Char) : splitDash cs ≠ [] := by
  cases cs with
  | nil => simp [splitDash]
  | cons c rest =>
    unfold splitDash
    split
    · simp
    · split <;> simp

theorem splitDash_no_dash (cs : List Char) (h : ∀ c ∈ cs, c ≠ '-') :
    splitDash cs = [cs] := by
  induction cs with
  | nil => rfl
  | cons c rest ih =>
    have hr := ih (fun x hx => h x (List.mem_cons_of_mem _ hx))
    have hc := h c (List.mem_cons_self c rest)
    simp [splitDash, hr, hc]

theorem splitDash_append (A B : List Char) (h : ∀ c ∈ A, c ≠ '-') :
    splitDash (A ++ '-' :: B) = A :: splitDash B := by
  induction A with
  | nil =>
    have hne := splitDash_ne_nil B
    simp only [List.nil_append, splitDash]
    cases hB : splitDash B with
    | nil => exact absurd hB hne
    | cons p ps => simp
  | cons c A ih =>
    have hr := ih (fun x hx => h x (List.mem_cons_of_mem _ hx))
    have hc := h c (List.mem_cons_self c A)
    simp only [List.cons_append, splitDash, hc, List.append_eq]
    rw [hr]
    simp

theorem isDigit_ne_dash {c : Char} (h : c.isDigit = true) : c ≠ '-' := by
  intro hc; subst hc; exact absurd h (by decide)

/-- C10: for every valid Month `m` (year ≥ 0, 1 ≤ month ≤ 12), parsing the
canonical zero-padded `YYYY-MM` string form round-trips:
`Month.parse(str(m)) = m`. -/
theorem month_parse_roundtrip (m : Month) (h : m.Valid) :
    Month.parse (Month.str m) = .ok m := by
  obtain ⟨h1, h2, h3⟩ := h
  unfold Month.str Month.parse
  have hA : ∀ c ∈ padZeros 4 (natDigits m.year.toNat), c ≠ '-' := by
    intro c hc
    rcases List.mem_append.mp hc with hrep | hd
    · have := List.eq_of_mem_replicate hrep; subst this; decide
    · exact isDigit_ne_dash (natDigits_all_digit _ c hd)
  have hB : ∀ c ∈ padZeros 2 (natDigits m.month.toNat), c ≠ '-' := by
    intro c hc
    rcases List.mem_append.mp hc with hrep | hd
    · have := List.eq_of_mem_replicate hrep; subst this; decide
    · exact isDigit_ne_dash (natDigits_all_digit _ c hd)
  rw [splitDash_append _ _ hA, splitDash_no_dash _ hB]
  simp only [pyParseInt_padZeros]
  have hy : Int.ofNat m.year.toNat = m.year := Int.toNat_of_nonneg h3
  have hmo : Int.ofNat m.month.toNat = m.month := Int.toNat_of_nonneg (by omega)
  rw [hy, hmo]
  rw [if_neg (by omega), if_neg (by omega)]
  exact (Month.init_ok_iff m.year m.month m).mpr ⟨rfl, rfl, h1, h2, h3⟩

/-- Witness for C10 at the concrete month 2024-07. -/
theorem month_parse_roundtrip_witness :
    (Month.mk 2024 7).Valid ∧ Month.parse (Month.str ⟨2024, 7⟩) = .ok ⟨2024, 7⟩ :=
  ⟨by decide, month_parse_roundtrip ⟨2024, 7⟩ (by decide)⟩

/-- C7: for every valid Month `m` (year ≥ 0, 1 ≤ month ≤ 12), `m.increment()`
returns the following month: if `m.month < 12` the result is
`Month(m.year, m.month + 1)`, and if `m.month = 12` the result is
`Month(m.year + 1, 1)`; the result is itself a valid Month. -/
theorem month_increment_correct (m : Month) (h : m.Valid) :
    (m.month < 12 → m.increment = ⟨m.year, m.month + 1⟩) ∧
    (m.month = 12 → m.increment = ⟨m.year + 1, 1⟩) ∧
    m.increment.Valid := by
  obtain ⟨h1, h2, h3⟩ := h
  refine ⟨fun hlt => ?_, fun heq => ?_, ?_⟩
  · unfold Month.increment
    rw [if_neg (by omega)]
  · unfold Month.increment
    rw [if_pos heq]
  · unfold Month.increment Month.Valid
    split <;> refine ⟨?_, ?_, ?_⟩ <;> dsimp only <;> omega

/-- Witness for C7 at the concrete months 2023-12 and 2023-05. -/
theorem month_increment_correct_witness :
    (Month.mk 2023 12).Valid ∧
    (Month.mk 2023 12).increment = ⟨2024, 1⟩ ∧
    (Month.mk 2023 5).increment = ⟨2023, 6⟩ := by
  refine ⟨by decide, ?_, ?_⟩
  · exact (month_increment_correct ⟨2023, 12⟩ (by decide)).2.1 (by decide)
  · exact (month_increment_correct ⟨2023, 5⟩ (by decide)).1 (by decide)

/-- A row of the `balances` table: `id` (surrogate rowid), `account_id`,
`month`, `amount`, with `UNIQUE(account_id, month)` (spec §6 schema; the DDL
file `sql/nwtrack_ddl.sql` is not under src/).  The month column stores the
canonical `str(month)` text; every write goes through `str(...)` of a valid
month and that text form is injective on valid months
(cf. `month_parse_roundtrip`), so the column is modelled as the `Month`
value itself. -/
structure BalanceRow where
  id : Nat
  account_id : Nat
  month : Month
  amount : Int
  deriving Repr, DecidableEq

/-- The `balances` table plus the next surrogate rowid SQLite would assign. -/
structure BalancesTable where
  rows : List BalanceRow
  nextId : Nat
  deriving Repr, DecidableEq

/-- Probe of the UNIQUE(account_id, month) index: is the pair already present? -/
def hasPair (rows : List BalanceRow) (aid : Nat) (M : Month) : Bool :=
  rows.any fun r => r.account_id == aid && r.month == M

/-- The UNIQUE(account_id, month) invariant of the `balances` table. -/
def UniquePairs (rows : List BalanceRow) : Prop :=
  rows.Pairwise fun a b => ¬(a.account_id = b.account_id ∧ a.month = b.month)

/-- Row-at-a-time semantics of the single `INSERT OR IGNORE ... SELECT` of
`SQLiteBalancesRepository.roll_forward` (repos.py lines 821-826): the rows
selected at the source month are inserted in order at `next`; a row whose
`(account_id, next)` pair is already present is skipped (OR IGNORE against
UNIQUE(account_id, month)); an inserted row receives the next rowid.  The
second component counts the rows actually inserted (`cur.rowcount`). -/
def rollForwardAux (next : Month) :
    List BalanceRow → BalancesTable × Nat → BalancesTable × Nat
  | [], acc => acc
  | b :: src, acc =>
    if hasPair acc.1.rows b.account_id next then
      rollForwardAux next src acc
    else
      rollForwardAux next src
        (⟨acc.1.rows ++ [⟨acc.1.nextId, b.account_id, next, b.amount⟩], acc.1.nextId + 1⟩,
          acc.2 + 1)

/-- `SQLiteBalancesRepository.roll_forward` (repos.py lines 815-833):
copy every balance row at `month` to `month.increment()`. -/
def rollForward (t : BalancesTable) (M : Month) : BalancesTable × Nat :=
  rollForwardAux M.increment (t.rows.filter fun b => b.month == M) (t, 0)

/-- `SQLiteBalancesRepository.check_month` (repos.py lines 798-813):
`SELECT 1 FROM balances WHERE month = :month LIMIT 1` fetched a row. -/
def checkMonth (t : BalancesTable) (M : Month) : Bool :=
  t.rows.any fun b => b.month == M

/-- `UpdateService.roll_balances_forward` (services.py lines 149-162): raises
`ValueError("No balances found for month.")` when `check_month` is false —
before the insert statement ever runs — otherwise performs the roll-forward. -/
def rollBalancesForward (t : BalancesTable) (M : Month) :
    Except NwError (BalancesTable × Nat) :=
  if checkMonth t M then .ok (rollForward t M)
  else .error (.valueError "No balances found for month.")

/-- `SQLiteBalancesRepository.update` (repos.py lines 776-796).  The UPDATE
statement executes (and `SQLiteConnectionManager.execute` commits it) before
the rowcount assertion, so the returned table is always the post-UPDATE table;
the second component carries the `AssertionError` raised when the statement
matched a number of rows other than one. -/
def balancesUpdate (t : BalancesTable) (aid : Nat) (M : Month) (newAmount : Int) :
    BalancesTable × Option NwError :=
  let matched := t.rows.filter fun b => b.account_id == aid && b.month == M
  let rows' := t.rows.map fun b =>
    if b.account_id == aid && b.month == M then { b with amount := newAmount } else b
  if matched.length = 1 then (⟨rows', t.nextId⟩, none)
  else (⟨rows', t.nextId⟩, some (.assertionError "Expected exactly one row to be updated."))

/-- A row of the `accounts` table (id PK, name UNIQUE, category and currency
foreign keys, status text). -/
structure AccountRow where
  id : Nat
  name : String
  description : String
  category : String
  currency : String
  status : String
  deriving Repr, DecidableEq

/-- `SQLiteBalancesRepository.get_month` (repos.py lines 749-774): inner join
of the balances at the month to accounts on `a.id = b.account_id`,
additionally filtered to `a.status = 'active'` when `active_only` (the
Python default).  Account ids are a primary key, so the join contributes each
balance row at most once; it is modelled as a filter on the balance rows. -/
def getMonth (accounts : List AccountRow) (t : BalancesTable) (M : Month)
    (active_only : Bool) : List BalanceRow :=
  if active_only then
    t.rows.filter fun b =>
      b.month == M && accounts.any fun a => a.id == b.account_id && a.status == "active"
  else
    t.rows.filter fun b =>
      b.month == M && accounts.any fun a => a.id == b.account_id

theorem hasPair_iff {rows : List BalanceRow} {aid : Nat} {M : Month} :
    hasPair rows aid M = true ↔ ∃ r ∈ rows, r.account_id = aid ∧ r.month = M := by
  simp [hasPair, List.any_eq_true]

theorem hasPair_append_left {rows ins : List BalanceRow} {aid : Nat} {M : Month}
    (h : hasPair rows aid M = true) : hasPair (rows ++ ins) aid M = true := by
  simp only [hasPair, List.any_append, Bool.or_eq_true]
  exact Or.inl h

theorem hasPair_append_right {rows ins : List BalanceRow} {aid : Nat} {M : Month}
    (h : hasPair ins aid M = true) : hasPair (rows ++ ins) aid M = true := by
  simp only [hasPair, List.any_append, Bool.or_eq_true]
  exact Or.inr h

theorem rollForwardAux_append (next : Month) (src : List BalanceRow)
    (acc : BalancesTable × Nat) :
    ∃ ins : List BalanceRow,
      (rollForwardAux next src acc).1.rows = acc.1.rows ++ ins ∧
      (∀ r ∈ ins, r.month = next) ∧
      (rollForwardAux next src acc).2 = acc.2 + ins.length := by
  induction src generalizing acc with
  | nil => exact ⟨[], by simp [rollForwardAux]⟩
  | cons b src ih =>
    unfold rollForwardAux
    split
    · exact ih acc
    · obtain ⟨ins, h1, h2, h3⟩ :=
        ih (⟨acc.1.rows ++ [⟨acc.1.nextId, b.account_id, next, b.amount⟩],
              acc.1.nextId + 1⟩, acc.2 + 1)
      refine ⟨⟨acc.1.nextId, b.account_id, next, b.amount⟩ :: ins, ?_, ?_, ?_⟩
      · rw [h1]; simp
      · intro r hr
        rcases List.mem_cons.mp hr with rfl | hr
        · rfl
        · exact h2 r hr
      · rw [h3]; simp; omega

theorem rollForwardAux_covers (next : Month) (src : List BalanceRow)
    (acc : BalancesTable × Nat) (b : BalanceRow) (hb : b ∈ src) :
    hasPair (rollForwardAux next src acc).1.rows b.account_id next = true := by
  induction src generalizing acc with
  | nil => cases hb
  | cons b' src ih =>
    unfold rollForwardAux
    rcases List.mem_cons.mp hb with rfl | hbs
    · split
      · rename_i hp
        obtain ⟨ins, h1, -, -⟩ := rollForwardAux_append next src acc
        rw [h1]
        exact hasPair_append_left hp
      · obtain ⟨ins, h1, -, -⟩ := rollForwardAux_append next src
          (⟨acc.1.rows ++ [⟨acc.1.nextId, b.account_id, next, b.amount⟩],
              acc.1.nextId + 1⟩, acc.2 + 1)
        rw [h1, List.append_assoc]
        apply hasPair_append_right
        apply hasPair_append_left
        simp [hasPair]
    · split
      · exact ih acc hbs
      · exact ih _ hbs

theorem rollForwardAux_noop (next : Month) (src : List BalanceRow)
    (acc : BalancesTable × Nat)
    (h : ∀ b ∈ src, hasPair acc.1.rows b.account_id next = true) :
    rollForwardAux next src acc = acc := by
  induction src with
  | nil => rfl
  | cons b src ih =>
    unfold rollForwardAux
    rw [if_pos (h b (List.mem_cons_self b src))]
    exact ih (fun b' hb' => h b' (List.mem_cons_of_mem _ hb'))

theorem rollForwardAux_inserts (next : Month) (src : List BalanceRow)
    (hdist : src.Pairwise fun a b => a.account_id ≠ b.account_id) :
    ∀ acc : BalancesTable × Nat, ∀ b ∈ src,
      hasPair acc.1.rows b.account_id next = false →
      ∃ r ∈ (rollForwardAux next src acc).1.rows,
        r.account_id = b.account_id ∧ r.month = next ∧ r.amount = b.amount := by
  induction src with
  | nil => intro acc b hb; cases hb
  | cons b' src ih =>
    intro acc b hb hfalse
    obtain ⟨hhead, htail⟩ := List.pairwise_cons.mp hdist
    rcases List.mem_cons.mp hb with rfl | hbs
    · unfold rollForwardAux
      rw [if_neg (by rw [hfalse]; exact Bool.false_ne_true)]
      obtain ⟨ins, h1, -, -⟩ := rollForwardAux_append next src
        (⟨acc.1.rows ++ [⟨acc.1.nextId, b.account_id, next, b.amount⟩],
            acc.1.nextId + 1⟩, acc.2 + 1)
      refine ⟨⟨acc.1.nextId, b.account_id, next, b.amount⟩, ?_, rfl, rfl, rfl⟩
      rw [h1]
      simp
    · unfold rollForwardAux
      split
      · exact ih htail acc b hbs hfalse
      · apply ih htail _ b hbs
        simp only [hasPair, List.any_append, List.any_cons, List.any_nil,
          Bool.or_false, Bool.or_eq_false_iff]
        constructor
        · exact hfalse
        · simp only [Bool.and_eq_false_iff]
          left
          simp only [beq_eq_false_iff_ne, ne_eq]
          exact hhead b hbs

theorem rollForward_def (t : BalancesTable) (M : Month) :
    rollForward t M
      = rollForwardAux M.increment (t.rows.filter fun b => b.month == M) (t, 0) := rfl

/-- Filtered to one month, rows of a UNIQUE(account_id, month) table have
pairwise-distinct account ids. -/
theorem filter_month_pairwise_ne (t : BalancesTable) (M : Month)
    (huniq : UniquePairs t.rows) :
    (t.rows.filter fun b => b.month == M).Pairwise
      fun a b => a.account_id ≠ b.account_id := by
  have hp := List.Pairwise.filter (R := fun a b : BalanceRow =>
    ¬(a.account_id = b.account_id ∧ a.month = b.month))
    (fun b => b.month == M) huniq
  refine hp.imp_of_mem ?_
  intro a b ha hb hR
  have ha' := (List.mem_filter.mp ha).2
  have hb' := (List.mem_filter.mp hb).2
  rw [beq_iff_eq] at ha' hb'
  intro heq
  exact hR ⟨heq, by rw [ha', hb']⟩

/-- Any source row at the month whose destination pair is absent gets a copy
with the same account id and amount at the next month. -/
theorem rollForward_copies (t : BalancesTable) (M : Month) (huniq : UniquePairs t.rows)
    (b : BalanceRow) (hb : b ∈ t.rows) (hm : b.month = M)
    (hfalse : hasPair t.rows b.account_id M.increment = false) :
    ∃ r ∈ (rollForward t M).1.rows,
      r.account_id = b.account_id ∧ r.month = M.increment ∧ r.amount = b.amount :=
  rollForwardAux_inserts M.increment _ (filter_month_pairwise_ne t M huniq) (t, 0) b
    (List.mem_filter.mpr ⟨hb, by simp [hm]⟩) hfalse

/-- C2: roll-forward inserts, for each Balance row at the source month, a row
at the incremented month with the same account id and amount, skipping — never
overwriting — destination pairs that already exist (the result extends the old
table, and the reported count is the number of appended rows); running it a
second time immediately afterwards inserts 0 rows and leaves the table —
hence every destination amount — unchanged. -/
theorem roll_forward_idempotent (t : BalancesTable) (M : Month)
    (huniq : UniquePairs t.rows) :
    (∃ ins : List BalanceRow,
        (rollForward t M).1.rows = t.rows ++ ins ∧
        (∀ r ∈ ins, r.month = M.increment) ∧
        (rollForward t M).2 = ins.length) ∧
    (∀ b ∈ t.rows, b.month = M →
      hasPair t.rows b.account_id M.increment = false →
      ∃ r ∈ (rollForward t M).1.rows,
        r.account_id = b.account_id ∧ r.month = M.increment ∧ r.amount = b.amount) ∧
    rollForward (rollForward t M).1 M = ((rollForward t M).1, 0) := by
  obtain ⟨ins, h1, h2, h3⟩ :=
    rollForwardAux_append M.increment (t.rows.filter fun b => b.month == M) (t, 0)
  refine ⟨⟨ins, h1, h2, h3.trans (Nat.zero_add _)⟩, ?_, ?_⟩
  · intro b hb hm hfalse
    exact rollForward_copies t M huniq b hb hm hfalse
  · have hfilter : ((rollForward t M).1.rows.filter fun b => b.month == M)
        = t.rows.filter fun b => b.month == M := by
      have h1' : (rollForward t M).1.rows = t.rows ++ ins := h1
      rw [h1', List.filter_append]
      have hnil : ins.filter (fun b => b.month == M) = [] := by
        rw [List.filter_eq_nil_iff]
        intro r hr
        simp only [beq_iff_eq]
        rw [h2 r hr]
        exact Month.increment_ne M
      rw [hnil, List.append_nil]
    rw [rollForward_def]
    rw [hfilter]
    exact rollForwardAux_noop M.increment _ ((rollForward t M).1, 0)
      (fun b hb => rollForwardAux_covers M.increment _ (t, 0) b hb)

/-- Witness for C2 on a one-row table at 2024-01. -/
theorem roll_forward_idempotent_witness :
    UniquePairs (BalancesTable.mk [⟨1, 1, ⟨2024, 1⟩, 500⟩] 2).rows ∧
    rollForward (rollForward ⟨[⟨1, 1, ⟨2024, 1⟩, 500⟩], 2⟩ ⟨2024, 1⟩).1 ⟨2024, 1⟩
      = ((rollForward ⟨[⟨1, 1, ⟨2024, 1⟩, 500⟩], 2⟩ ⟨2024, 1⟩).1, 0) :=
  ⟨by simp [UniquePairs],
   (roll_forward_idempotent ⟨[⟨1, 1, ⟨2024, 1⟩, 500⟩], 2⟩ ⟨2024, 1⟩
      (by simp [UniquePairs])).2.2⟩

/-- C4: rolling balances forward when no Balance row exists for the source
month fails with the "No balances found for month." error — raised before the
insert statement ever runs, so nothing is inserted — and with at least one
Balance at the month the check passes and the copy proceeds. -/
theorem roll_balances_forward_check (t : BalancesTable) (M : Month) :
    ((∀ b ∈ t.rows, b.month ≠ M) →
      rollBalancesForward t M = .error (.valueError "No balances found for month.")) ∧
    ((∃ b ∈ t.rows, b.month = M) →
      rollBalancesForward t M = .ok (rollForward t M)) := by
  constructor
  · intro h
    have hc : ¬ checkMonth t M = true := by
      simp only [checkMonth, List.any_eq_true, beq_iff_eq]
      push_neg
      exact h
    unfold rollBalancesForward
    rw [if_neg hc]
  · intro h
    have hc : checkMonth t M = true := by
      simp only [checkMonth, List.any_eq_true, beq_iff_eq]
      exact h
    unfold rollBalancesForward
    rw [if_pos hc]

/-- Witness for C4: the empty table errors; a one-row table proceeds. -/
theorem roll_balances_forward_check_witness :
    (∀ b ∈ (BalancesTable.mk [] 1).rows, b.month ≠ ⟨2024, 1⟩) ∧
    rollBalancesForward ⟨[], 1⟩ ⟨2024, 1⟩
      = .error (.valueError "No balances found for month.") ∧
    (∃ b ∈ (BalancesTable.mk [⟨1, 1, ⟨2024, 1⟩, 500⟩] 2).rows, b.month = ⟨2024, 1⟩) ∧
    rollBalancesForward ⟨[⟨1, 1, ⟨2024, 1⟩, 500⟩], 2⟩ ⟨2024, 1⟩
      = .ok (rollForward ⟨[⟨1, 1, ⟨2024, 1⟩, 500⟩], 2⟩ ⟨2024, 1⟩) :=
  ⟨by simp, (roll_balances_forward_check ⟨[], 1⟩ ⟨2024, 1⟩).1 (by simp),
   by decide, (roll_balances_forward_check ⟨[⟨1, 1, ⟨2024, 1⟩, 500⟩], 2⟩ ⟨2024, 1⟩).2
     (by decide)⟩

/-- C5: `update` flags the exactly-one-row `AssertionError` (the code's
realization of the spec's `InvariantViolation`) whenever the number of rows
matching `(account_id, month)` differs from 1 — in particular, for a
non-existent pair 0 rows match, the error is raised and the table is left
unchanged (an error, not a silent None result) — and succeeds, setting the new
amount, when exactly one row matches. -/
theorem balances_update_invariant (t : BalancesTable) (aid : Nat) (M : Month) (amt : Int) :
    ((t.rows.filter fun b => b.account_id == aid && b.month == M).length ≠ 1 →
      (balancesUpdate t aid M amt).2
        = some (.assertionError "Expected exactly one row to be updated.")) ∧
    ((∀ b ∈ t.rows, ¬(b.account_id = aid ∧ b.month = M)) →
      (balancesUpdate t aid M amt).2
        = some (.assertionError "Expected exactly one row to be updated.") ∧
      (balancesUpdate t aid M amt).1 = t) ∧
    ((t.rows.filter fun b => b.account_id == aid && b.month == M).length = 1 →
      (balancesUpdate t aid M amt).2 = none ∧
      ∃ r ∈ (balancesUpdate t aid M amt).1.rows,
        r.account_id = aid ∧ r.month = M ∧ r.amount = amt) := by
  refine ⟨?_, ?_, ?_⟩
  · intro h
    simp only [balancesUpdate]
    rw [if_neg h]
  · intro h
    have hnil : (t.rows.filter fun b => b.account_id == aid && b.month == M) = [] := by
      rw [List.filter_eq_nil_iff]
      intro b hb
      have hb' := h b hb
      simp only [Bool.and_eq_true, beq_iff_eq]
      exact hb'
    have hlen : (t.rows.filter fun b => b.account_id == aid && b.month == M).length ≠ 1 := by
      rw [hnil]
      simp
    constructor
    · simp only [balancesUpdate]
      rw [if_neg hlen]
    · simp only [balancesUpdate]
      rw [if_neg hlen]
      have hmap : (t.rows.map fun b =>
          if b.account_id == aid && b.month == M then { b with amount := amt } else b)
            = t.rows := by
        have hid : ∀ b ∈ t.rows,
            (if b.account_id == aid && b.month == M then { b with amount := amt } else b)
              = b := by
          intro b hb
          have hb' := h b hb
          have hcond : ¬((b.account_id == aid && b.month == M) = true) := by
            simp only [Bool.and_eq_true, beq_iff_eq]
            exact hb'
          rw [if_neg hcond]
        rw [List.map_congr_left hid, List.map_id']
      rw [hmap]
  · intro h
    constructor
    · simp only [balancesUpdate]
      rw [if_pos h]
    · obtain ⟨b₀, hb0⟩ := List.length_eq_one.mp h
      have hmem : b₀ ∈ t.rows.filter fun b => b.account_id == aid && b.month == M := by
        rw [hb0]
        exact List.mem_cons_self _ _
      obtain ⟨hmem', hcondb⟩ := List.mem_filter.mp hmem
      have hcond : b₀.account_id = aid ∧ b₀.month = M := by
        simpa only [Bool.and_eq_true, beq_iff_eq] using hcondb
      refine ⟨{ b₀ with amount := amt }, ?_, hcond.1, hcond.2, rfl⟩
      simp only [balancesUpdate]
      rw [if_pos h]
      exact List.mem_map.mpr ⟨b₀, hmem', by rw [if_pos hcondb]⟩

/-- Witness for C5: a one-row table at 2024-01; account 9 has no row (0 rows
matched — error, table unchanged), account 1 has exactly one (update succeeds). -/
theorem balances_update_invariant_witness :
    (∀ b ∈ (BalancesTable.mk [⟨1, 1, ⟨2024, 1⟩, 500⟩] 2).rows,
        ¬(b.account_id = 9 ∧ b.month = ⟨2024, 1⟩)) ∧
    ((balancesUpdate ⟨[⟨1, 1, ⟨2024, 1⟩, 500⟩], 2⟩ 9 ⟨2024, 1⟩ 300).2
        = some (.assertionError "Expected exactly one row to be updated.") ∧
      (balancesUpdate ⟨[⟨1, 1, ⟨2024, 1⟩, 500⟩], 2⟩ 9 ⟨2024, 1⟩ 300).1
        = ⟨[⟨1, 1, ⟨2024, 1⟩, 500⟩], 2⟩) ∧
    (((BalancesTable.mk [⟨1, 1, ⟨2024, 1⟩, 500⟩] 2).rows.filter
        fun b => b.account_id == 1 && b.month == Month.mk 2024 1).length = 1) ∧
    ((balancesUpdate ⟨[⟨1, 1, ⟨2024, 1⟩, 500⟩], 2⟩ 1 ⟨2024, 1⟩ 300).2 = none ∧
      ∃ r ∈ (balancesUpdate ⟨[⟨1, 1, ⟨2024, 1⟩, 500⟩], 2⟩ 1 ⟨2024, 1⟩ 300).1.rows,
        r.account_id = 1 ∧ r.month = ⟨2024, 1⟩ ∧ r.amount = 300) :=
  ⟨by decide,
   (balances_update_invariant ⟨[⟨1, 1, ⟨2024, 1⟩, 500⟩], 2⟩ 9 ⟨2024, 1⟩ 300).2.1
     (by decide),
   by decide,
   (balances_update_invariant ⟨[⟨1, 1, ⟨2024, 1⟩, 500⟩], 2⟩ 1 ⟨2024, 1⟩ 300).2.2
     (by decide)⟩

/-- C9: roll-forward applies no account-status filter: a balance row whose
account is inactive in the accounts table is still copied to the next month,
while `get_month` with `active_only = true` (the Python default) excludes
that same row. -/
theorem roll_forward_ignores_status (accounts : List AccountRow) (t : BalancesTable)
    (M : Month) (b : BalanceRow) (huniq : UniquePairs t.rows) (hb : b ∈ t.rows)
    (hm : b.month = M)
    (hia : ∀ a ∈ accounts, a.id = b.account_id → a.status = "inactive") :
    b ∉ getMonth accounts t M true ∧
    (hasPair t.rows b.account_id M.increment = false →
      ∃ r ∈ (rollForward t M).1.rows,
        r.account_id = b.account_id ∧ r.month = M.increment ∧ r.amount = b.amount) := by
  constructor
  · intro hmem
    unfold getMonth at hmem
    rw [if_pos rfl] at hmem
    obtain ⟨-, hcond⟩ := List.mem_filter.mp hmem
    simp only [Bool.and_eq_true, List.any_eq_true, beq_iff_eq] at hcond
    obtain ⟨-, a, ha, haid, hst⟩ := hcond
    have hinact := hia a ha haid
    rw [hinact] at hst
    exact absurd hst (by decide)
  · intro hfalse
    exact rollForward_copies t M huniq b hb hm hfalse

/-- Witness for C9: a single inactive account owning the sole balance row. -/
theorem roll_forward_ignores_status_witness :
    UniquePairs (BalancesTable.mk [⟨1, 1, ⟨2024, 1⟩, 500⟩] 2).rows ∧
    (⟨1, 1, ⟨2024, 1⟩, 500⟩ : BalanceRow) ∈ (BalancesTable.mk [⟨1, 1, ⟨2024, 1⟩, 500⟩] 2).rows ∧
    (BalanceRow.mk 1 1 ⟨2024, 1⟩ 500).month = ⟨2024, 1⟩ ∧
    (∀ a ∈ [AccountRow.mk 1 "acc" "d" "cat" "USD" "inactive"],
        a.id = (BalanceRow.mk 1 1 ⟨2024, 1⟩ 500).account_id → a.status = "inactive") ∧
    (⟨1, 1, ⟨2024, 1⟩, 500⟩ : BalanceRow)
      ∉ getMonth [⟨1, "acc", "d", "cat", "USD", "inactive"⟩]
          ⟨[⟨1, 1, ⟨2024, 1⟩, 500⟩], 2⟩ ⟨2024, 1⟩ true ∧
    (∃ r ∈ (rollForward ⟨[⟨1, 1, ⟨2024, 1⟩, 500⟩], 2⟩ ⟨2024, 1⟩).1.rows,
        r.account_id = 1 ∧ r.month = (Month.mk 2024 1).increment ∧ r.amount = 500) :=
  ⟨by simp [UniquePairs], by decide, by decide, by decide,
   (roll_forward_ignores_status [⟨1, "acc", "d", "cat", "USD", "inactive"⟩]
      ⟨[⟨1, 1, ⟨2024, 1⟩, 500⟩], 2⟩ ⟨2024, 1⟩ ⟨1, 1, ⟨2024, 1⟩, 500⟩
      (by simp [UniquePairs]) (by decide) (by decide) (by decide)).1,
   (roll_forward_ignores_status [⟨1, "acc", "d", "cat", "USD", "inactive"⟩]
      ⟨[⟨1, 1, ⟨2024, 1⟩, 500⟩], 2⟩ ⟨2024, 1⟩ ⟨1, 1, ⟨2024, 1⟩, 500⟩
      (by simp [UniquePairs]) (by decide) (by decide) (by decide)).2 (by decide)⟩

/-- A row of the `currencies` table (code PK, description). -/
structure CurrencyRow where
  code : String
  description : String
  deriving Repr, DecidableEq

/-- A row of the `categories` table (name PK, side ∈ {asset, liability}). -/
structure CategoryRow where
  name : String
  side : String
  deriving Repr, DecidableEq

/-- A row of the `exchange_rates` table, UNIQUE(currency, month) (spec §6).
The REAL `rate` is carried opaquely as a rational; no arithmetic touches it. -/
structure RateRow where
  currency : String
  month : Month
  rate : Rat
  deriving Repr, DecidableEq

/-- `SQLiteExchangeRatesRepository.get` (repos.py lines 900-920): fetch the
rate row for (currency, month); `None` when absent. -/
def exchangeRatesGet (rates : List RateRow) (M : Month) (code : String) : Option RateRow :=
  rates.find? fun r => r.currency == code && r.month == M

/-- `ReportService.get_exchange_rate` (services.py lines 367-385): raises
`ValueError` when the currency code is not among the currency table's codes,
otherwise returns the repository result — which is `None` when no rate row
exists for the pair. -/
def getExchangeRate (currencies : List CurrencyRow) (rates : List RateRow)
    (M : Month) (code : String) : Except NwError (Option RateRow) :=
  if code ∈ currencies.map (fun c => c.code) then
    .ok (exchangeRatesGet rates M code)
  else .error (.valueError ("Currency \x27" ++ code ++ "\x27 not found in database."))

/-- C6 counterexample: with EUR present in the currencies table and no
exchange-rate row for (2018-12, EUR), `get_exchange_rate` returns `ok none` —
it raises nothing — contradicting the claim that the missing rate raises an
error for a currency present in the currencies table. -/
theorem get_exchange_rate_missing_counterexample :
    getExchangeRate [⟨"EUR", "Euro"⟩] [] ⟨2018, 12⟩ "EUR" = .ok none ∧
    ∀ e : NwError, getExchangeRate [⟨"EUR", "Euro"⟩] [] ⟨2018, 12⟩ "EUR" ≠ .error e := by
  constructor
  · rfl
  · intro e h
    rw [show getExchangeRate [⟨"EUR", "Euro"⟩] [] ⟨2018, 12⟩ "EUR" = .ok none from rfl] at h
    cases h

/-- C6 amended: for a currency code present in the currencies table but with
no exchange-rate row for the (month, code) pair, `get_exchange_rate` returns
`None` — never a defaulted rate and no error; the error path (`ValueError`,
"Currency ... not found in database.") exists only for a currency code absent
from the currencies table. -/
theorem get_exchange_rate_missing (currencies : List CurrencyRow) (rates : List RateRow)
    (M : Month) (code : String) :
    ((∃ c ∈ currencies, c.code = code) →
      (∀ r ∈ rates, ¬(r.currency = code ∧ r.month = M)) →
      getExchangeRate currencies rates M code = .ok none) ∧
    ((∀ c ∈ currencies, c.code ≠ code) →
      getExchangeRate currencies rates M code
        = .error (.valueError ("Currency \x27" ++ code ++ "\x27 not found in database."))) := by
  constructor
  · intro hc hr
    have hmem : code ∈ currencies.map fun c => c.code := by
      obtain ⟨c, hcm, hce⟩ := hc
      exact List.mem_map.mpr ⟨c, hcm, hce⟩
    have hfind : exchangeRatesGet rates M code = none := by
      unfold exchangeRatesGet
      rw [List.find?_eq_none]
      intro r hrm
      have := hr r hrm
      simp only [Bool.and_eq_true, beq_iff_eq]
      exact this
    unfold getExchangeRate
    rw [if_pos hmem, hfind]
  · intro hc
    have hmem : code ∉ currencies.map fun c => c.code := by
      intro hm
      obtain ⟨c, hcm, hce⟩ := List.mem_map.mp hm
      exact hc c hcm hce
    unfold getExchangeRate
    rw [if_neg hmem]

/-- Witness for the amended C6: EUR known with no rate row returns None; an
unknown code errors. -/
theorem get_exchange_rate_missing_witness :
    (∃ c ∈ [CurrencyRow.mk "EUR" "Euro"], c.code = "EUR") ∧
    (∀ r ∈ ([] : List RateRow), ¬(r.currency = "EUR" ∧ r.month = ⟨2018, 12⟩)) ∧
    getExchangeRate [⟨"EUR", "Euro"⟩] [] ⟨2018, 12⟩ "EUR" = .ok none ∧
    (∀ c ∈ [CurrencyRow.mk "USD" "US dollar"], c.code ≠ "GBP") ∧
    getExchangeRate [⟨"USD", "US dollar"⟩] [] ⟨2018, 12⟩ "GBP"
      = .error (.valueError ("Currency \x27GBP\x27 not found in database.")) :=
  ⟨by decide, by decide,
   (get_exchange_rate_missing [⟨"EUR", "Euro"⟩] [] ⟨2018, 12⟩ "EUR").1
     (by decide) (by decide),
   by decide,
   (get_exchange_rate_missing [⟨"USD", "US dollar"⟩] [] ⟨2018, 12⟩ "GBP").2 (by decide)⟩

/-- The inner-join step of the net-worth aggregation: attach to a balance row
its owning account (`a.id = b.account_id`) and that account's category
(`c.name = a.category`); rows without a match drop out of an inner join.
Account ids and category names are primary keys, so `find?` models the join
multiplicity. -/
def joinRow (cats : List CategoryRow) (accounts : List AccountRow) (b : BalanceRow) :
    Option (BalanceRow × AccountRow × CategoryRow) :=
  (accounts.find? fun a => a.id == b.account_id).bind fun a =>
    (cats.find? fun c => c.name == a.category).map fun c => (b, a, c)

/-- Balance rows at the month joined to accounts and categories. -/
def joinedAtMonth (cats : List CategoryRow) (accounts : List AccountRow)
    (rows : List BalanceRow) (M : Month) :
    List (BalanceRow × AccountRow × CategoryRow) :=
  (rows.filter fun b => b.month == M).filterMap (joinRow cats accounts)

/-- The row shape of the `networth_history` view consumed by
`SQLiteNetWorthRepository.get` (repos.py lines 978-997). -/
structure NetWorthRow where
  month : Month
  assets : Int
  liabilities : Int
  net_worth : Int
  currency : String
  deriving Repr, DecidableEq

/-- Modelled from the spec: the `networth_history` view itself — its DDL file
`sql/nwtrack_ddl.sql` is not under src/; only its consumers are.  Spec §4.5:
join Balance rows at `month` to the owning Account and its Category, partition
by `Category.side`, `assets = sum(amount where side = asset)`,
`liabilities = sum(amount where side = liability)`,
`net_worth = assets - liabilities`.  Amounts are summed as stored (step 5
currency conversion is outside the modelled view).  This is the record
`SQLiteNetWorthRepository.get` returns for the month. -/
def netWorthGet (cats : List CategoryRow) (accounts : List AccountRow)
    (t : BalancesTable) (M : Month) (currency : String) : NetWorthRow :=
  let j := joinedAtMonth cats accounts t.rows M
  let assets := ((j.filter fun x => x.2.2.side == "asset").map fun x => x.1.amount).sum
  let liabilities :=
    ((j.filter fun x => x.2.2.side == "liability").map fun x => x.1.amount).sum
  ⟨M, assets, liabilities, assets - liabilities, currency⟩

/-- The category side owning a balance row's account, written the way the
spec phrases the sums (per account id), for comparison with the join. -/
def accountSide (cats : List CategoryRow) (accounts : List AccountRow) (aid : Nat) :
    Option String :=
  (accounts.find? fun a => a.id == aid).bind fun a =>
    (cats.find? fun c => c.name == a.category).map fun c => c.side

theorem accountSide_joinRow (cats : List CategoryRow) (accounts : List AccountRow)
    (b : BalanceRow) :
    accountSide cats accounts b.account_id
      = (joinRow cats accounts b).map fun x => x.2.2.side := by
  unfold accountSide joinRow
  cases accounts.find? fun a => a.id == b.account_id with
  | none => rfl
  | some a =>
    show ((cats.find? fun c => c.name == a.category).map fun c => c.side)
        = ((cats.find? fun c => c.name == a.category).map fun c => (b, a, c)).map
            fun x => x.2.2.side
    cases cats.find? fun c => c.name == a.category with
    | none => rfl
    | some c => rfl

theorem joinRow_fst (cats : List CategoryRow) (accounts : List AccountRow)
    (b : BalanceRow) (x : BalanceRow × AccountRow × CategoryRow)
    (h : joinRow cats accounts b = some x) : x.1 = b := by
  unfold joinRow at h
  cases hfa : accounts.find? fun a => a.id == b.account_id with
  | none => rw [hfa] at h; cases h
  | some a =>
    rw [hfa] at h
    have h' : ((cats.find? fun c => c.name == a.category).map fun c => (b, a, c))
        = some x := h
    cases hfc : cats.find? fun c => c.name == a.category with
    | none => rw [hfc] at h'; cases h'
    | some c =>
      rw [hfc] at h'
      cases h'
      rfl

theorem joined_filter_map_amount (cats : List CategoryRow) (accounts : List AccountRow)
    (L : List BalanceRow) (s : String) :
    (((L.filterMap (joinRow cats accounts)).filter
        fun x => x.2.2.side == s).map fun x => x.1.amount)
      = ((L.filter fun b => accountSide cats accounts b.account_id == some s).map
          fun b => b.amount) := by
  induction L with
  | nil => rfl
  | cons b L ih =>
    rw [List.filterMap_cons]
    cases hj : joinRow cats accounts b with
    | none =>
      have hs := accountSide_joinRow cats accounts b
      rw [hj] at hs
      rw [List.filter_cons]
      simp only [hs, Option.map_none']
      rw [if_neg (by simp)]
      exact ih
    | some x =>
      have hs := accountSide_joinRow cats accounts b
      rw [hj] at hs
      have hb := joinRow_fst cats accounts b x hj
      rw [List.filter_cons, List.filter_cons]
      by_cases hside : x.2.2.side = s
      · rw [if_pos (by simp [hside]), if_pos (by simp [hs, hside])]
        rw [List.map_cons, List.map_cons, hb, ih]
      · rw [if_neg (by simp [hside]), if_neg (by simp [hs, hside])]
        exact ih

/-- C3: the NetWorth record for a month satisfies
`net_worth = assets - liabilities`, with `assets` / `liabilities` the sums of
Balance.amount over balance rows at the month whose owning account's category
side is asset / liability (so restricted to accounts with a Balance at the
month — the inner join drops everything else). -/
theorem net_worth_additivity (cats : List CategoryRow) (accounts : List AccountRow)
    (t : BalancesTable) (M : Month) (code : String) :
    (netWorthGet cats accounts t M code).net_worth
        = (netWorthGet cats accounts t M code).assets
          - (netWorthGet cats accounts t M code).liabilities ∧
    (netWorthGet cats accounts t M code).assets
        = ((t.rows.filter fun b => b.month == M
              && accountSide cats accounts b.account_id == some "asset").map
            fun b => b.amount).sum ∧
    (netWorthGet cats accounts t M code).liabilities
        = ((t.rows.filter fun b => b.month == M
              && accountSide cats accounts b.account_id == some "liability").map
            fun b => b.amount).sum := by
  refine ⟨rfl, ?_, ?_⟩
  · show (((joinedAtMonth cats accounts t.rows M).filter
        fun x => x.2.2.side == "asset").map fun x => x.1.amount).sum = _
    rw [joinedAtMonth, joined_filter_map_amount, List.filter_filter]
    exact congrArg (fun l : List BalanceRow => (l.map fun b => b.amount).sum)
      (List.filter_congr fun b _ => Bool.and_comm _ _)
  · show (((joinedAtMonth cats accounts t.rows M).filter
        fun x => x.2.2.side == "liability").map fun x => x.1.amount).sum = _
    rw [joinedAtMonth, joined_filter_map_amount, List.filter_filter]
    exact congrArg (fun l : List BalanceRow => (l.map fun b => b.amount).sum)
      (List.filter_congr fun b _ => Bool.and_comm _ _)

/-- The database tables touched by the Unit-of-Work scenario, with the next
surrogate account id. -/
structure Tables where
  currencies : List CurrencyRow
  categories : List CategoryRow
  accounts : List AccountRow
  balances : BalancesTable
  nextAccountId : Nat
  deriving Repr, DecidableEq

/-- Connection state: the last committed database and the connection's
current (possibly uncommitted) database. -/
structure DBState where
  committed : Tables
  current : Tables
  deriving Repr, DecidableEq

/-- Result of a gateway call: the connection state afterwards and the Python
exception, if one was raised. -/
structure StepResult where
  state : DBState
  error : Option NwError
  deriving Repr, DecidableEq

/-- The `INSERT INTO accounts (name, description, category, currency, status)`
statement of `SQLiteAccountsRepository.insert` (repos.py lines 401-413):
UNIQUE(name), foreign keys category → categories.name and currency →
currencies.code (PRAGMA foreign_keys = ON); the new row gets the next id. -/
def insertAccountStmt (name description category currency status : String)
    (t : Tables) : Except NwError Tables :=
  if t.accounts.any fun a => a.name == name then
    .error (.integrityError "UNIQUE constraint failed: accounts.name")
  else if ¬ t.categories.any fun c => c.name == category then
    .error (.integrityError "FOREIGN KEY constraint failed")
  else if ¬ t.currencies.any fun c => c.code == currency then
    .error (.integrityError "FOREIGN KEY constraint failed")
  else
    .ok { t with
      accounts := t.accounts
        ++ [⟨t.nextAccountId, name, description, category, currency, status⟩],
      nextAccountId := t.nextAccountId + 1 }

/-- One parameter row of the `INSERT INTO balances (account_id, month, amount)`
statement of `SQLiteBalancesRepository.insert_many` (repos.py lines 671-685):
foreign key account_id → accounts.id and UNIQUE(account_id, month). -/
def insertBalanceStmt (aid : Nat) (M : Month) (amount : Int) (t : Tables) :
    Except NwError Tables :=
  if ¬ t.accounts.any fun a => a.id == aid then
    .error (.integrityError "FOREIGN KEY constraint failed")
  else if hasPair t.balances.rows aid M then
    .error (.integrityError "UNIQUE constraint failed: balances.account_id, balances.month")
  else
    .ok { t with balances :=
      ⟨t.balances.rows ++ [⟨t.balances.nextId, aid, M, amount⟩], t.balances.nextId + 1⟩ }

/-- `SQLiteConnectionManager.execute` (dbmanager.py lines 64-75): run the
statement against the connection's current state, then `conn.commit()` — every
single statement is committed immediately.  A failing statement changes
nothing and surfaces its exception. -/
def dbExecute (st : DBState) (stmt : Tables → Except NwError Tables) : StepResult :=
  match stmt st.current with
  | .ok t => ⟨⟨t, t⟩, none⟩
  | .error e => ⟨st, some e⟩

/-- `conn.executemany` over a parameter list: the per-row statements run in
order, stopping at the first failure. -/
def runStmts (t : Tables) :
    List (Tables → Except NwError Tables) → Except NwError Tables
  | [] => .ok t
  | s :: rest =>
    match s t with
    | .ok next => runStmts next rest
    | .error e => .error e

/-- `SQLiteConnectionManager.execute_many` (dbmanager.py lines 82-86): the
`with conn:` block commits when the body succeeds and rolls the connection
back to its committed state when the body raises, re-raising the exception. -/
def dbExecuteMany (st : DBState) (stmts : List (Tables → Except NwError Tables)) :
    StepResult :=
  match runStmts st.current stmts with
  | .ok t => ⟨⟨t, t⟩, none⟩
  | .error e => ⟨⟨st.committed, st.committed⟩, some e⟩

/-- `SQLiteUnitOfWork.__exit__` (unitofwork.py lines 73-88): commit when the
block completed without error; roll back (current := committed) and re-raise
when an exception propagated out of the block. -/
def uowExit (st : DBState) (err : Option NwError) : DBState :=
  match err with
  | some _ => ⟨st.committed, st.committed⟩
  | none => ⟨st.current, st.current⟩

/-- One Unit-of-Work scope performing `uow.accounts.insert(acct)` followed by
`uow.balances.insert_many([bal])` — the rollback-atomicity scenario.  The
account insert goes through `execute`, the balance insert through
`execute_many`; an exception aborts the block and reaches `__exit__`, which
rolls back before re-raising. -/
def uowInsertAccountThenBalance (st : DBState)
    (name description category currency status : String)
    (aid : Nat) (M : Month) (amount : Int) : DBState × Option NwError :=
  let r1 := dbExecute st (insertAccountStmt name description category currency status)
  match r1.error with
  | some e => (uowExit r1.state (some e), some e)
  | none =>
    let r2 := dbExecuteMany r1.state [insertBalanceStmt aid M amount]
    (uowExit r2.state r2.error, r2.error)

/-- C1 evidence: starting from a committed database with one currency and one
category, a Unit-of-Work scope inserts an Account (succeeds) and then a
Balance with a dangling account_id 999 (fails its foreign key).  The error is
re-raised and the scope's rollback runs — yet the Account row is still
committed and visible after the scope exits, because
`SQLiteConnectionManager.execute` committed it immediately.  This contradicts
the claim that neither write is visible. -/
theorem uow_rollback_partial_write :
    (uowInsertAccountThenBalance
        ⟨⟨[⟨"USD", "US dollar"⟩], [⟨"cash", "asset"⟩], [], ⟨[], 1⟩, 1⟩,
         ⟨[⟨"USD", "US dollar"⟩], [⟨"cash", "asset"⟩], [], ⟨[], 1⟩, 1⟩⟩
        "checking" "desc" "cash" "USD" "active" 999 ⟨2024, 1⟩ 500).2
      = some (.integrityError "FOREIGN KEY constraint failed") ∧
    (uowInsertAccountThenBalance
        ⟨⟨[⟨"USD", "US dollar"⟩], [⟨"cash", "asset"⟩], [], ⟨[], 1⟩, 1⟩,
         ⟨[⟨"USD", "US dollar"⟩], [⟨"cash", "asset"⟩], [], ⟨[], 1⟩, 1⟩⟩
        "checking" "desc" "cash" "USD" "active" 999 ⟨2024, 1⟩ 500).1.committed.accounts
      = [⟨1, "checking", "desc", "cash", "USD", "active"⟩] ∧
    (uowInsertAccountThenBalance
        ⟨⟨[⟨"USD", "US dollar"⟩], [⟨"cash", "asset"⟩], [], ⟨[], 1⟩, 1⟩,
         ⟨[⟨"USD", "US dollar"⟩], [⟨"cash", "asset"⟩], [], ⟨[], 1⟩, 1⟩⟩
        "checking" "desc" "cash" "USD" "active" 999 ⟨2024, 1⟩ 500).1.committed.balances.rows
      = [] := by
  refine ⟨?_, ?_, ?_⟩ <;> rfl

/-- A primitive record value (mappers.py records map field names to
primitive values). -/
inductive PyVal where
  | str (s : String)
  | int (n : Int)
  deriving Repr, DecidableEq

/-- A flat record: field name to primitive value (`SQLiteRecord`). -/
abbrev Record := List (String × PyVal)

/-- `record.get(k)`: the value at the first occurrence of the key, if any. -/
def recordGet (r : Record) (k : String) : Option PyVal :=
  (r.find? fun p => p.1 == k).map fun p => p.2

/-- `record[k]`: raises `KeyError` when the key is absent. -/
def requireField (r : Record) (k : String) : Except NwError PyVal :=
  match recordGet r k with
  | some v => .ok v
  | none => .error (.keyError k)

/-- `models.Status` (StrEnum with members active / inactive). -/
inductive Status where
  | active
  | inactive
  deriving Repr, DecidableEq

/-- Python `Status(x)`: succeeds only on the exact member values, raising
`ValueError` otherwise. -/
def pyStatus : PyVal → Except NwError Status
  | .str "active" => .ok .active
  | .str "inactive" => .ok .inactive
  | _ => .error (.valueError "is not a valid Status")

/-- Python `int(x)` on a record value: an int passes through, a digit string
parses, anything else raises `ValueError`. -/
def pyIntOf : PyVal → Except NwError Int
  | .int n => .ok n
  | .str s => pyParseInt s.toList

/-- The `Account` entity as the mapper constructs it: `id` coerced through
`int(...)` and `status` through `Status(...)`; the remaining fields take the
raw record values (Python performs no conversion on them). -/
structure AccountEntity where
  id : Int
  name : PyVal
  description : PyVal
  category_name : PyVal
  currency_code : PyVal
  status : Status
  deriving Repr, DecidableEq

/-- `AccountMapper.to_entity` (mappers.py lines 122-139): `record.get("id", 0)`
substitutes a default 0 for a missing id; every other field is a mandatory
`record[...]` lookup (KeyError when missing); `Status(record["status"])`
rejects invalid status values.  Fields evaluate in Python argument order. -/
def accountToEntity (r : Record) : Except NwError AccountEntity :=
  match pyIntOf ((recordGet r "id").getD (.int 0)) with
  | .error e => .error e
  | .ok id =>
    match requireField r "name" with
    | .error e => .error e
    | .ok name =>
      match requireField r "description" with
      | .error e => .error e
      | .ok description =>
        match requireField r "category" with
        | .error e => .error e
        | .ok category =>
          match requireField r "currency" with
          | .error e => .error e
          | .ok currency =>
            match requireField r "status" with
            | .error e => .error e
            | .ok sv =>
              match pyStatus sv with
              | .error e => .error e
              | .ok status => .ok ⟨id, name, description, category, currency, status⟩

/-- The required fields of an account record (all but the defaulted `id`). -/
def accountRequiredFields : List String :=
  ["name", "description", "category", "currency", "status"]

theorem requireField_ok_iff (r : Record) (k : String) (v : PyVal) :
    requireField r k = .ok v ↔ recordGet r k = some v := by
  unfold requireField
  cases recordGet r k <;> simp

theorem requireField_error_of_none (r : Record) (k : String)
    (h : recordGet r k = none) : requireField r k = .error (.keyError k) := by
  unfold requireField
  rw [h]

/-- If the mapper succeeds, every required field was present, and a missing
id was defaulted to 0 rather than rejected. -/
theorem accountToEntity_ok_implies (r : Record) (a : AccountEntity)
    (h : accountToEntity r = .ok a) :
    (∀ k ∈ accountRequiredFields, recordGet r k ≠ none) ∧
    (recordGet r "id" = none → a.id = 0) := by
  unfold accountToEntity at h
  cases hid : pyIntOf ((recordGet r "id").getD (.int 0)) with
  | error e => rw [hid] at h; cases h
  | ok n =>
    rw [hid] at h; dsimp only at h
    cases h1 : requireField r "name" with
    | error e => rw [h1] at h; cases h
    | ok v1 =>
      rw [h1] at h; dsimp only at h
      cases h2 : requireField r "description" with
      | error e => rw [h2] at h; cases h
      | ok v2 =>
        rw [h2] at h; dsimp only at h
        cases h3 : requireField r "category" with
        | error e => rw [h3] at h; cases h
        | ok v3 =>
          rw [h3] at h; dsimp only at h
          cases h4 : requireField r "currency" with
          | error e => rw [h4] at h; cases h
          | ok v4 =>
            rw [h4] at h; dsimp only at h
            cases h5 : requireField r "status" with
            | error e => rw [h5] at h; cases h
            | ok v5 =>
              rw [h5] at h; dsimp only at h
              cases h6 : pyStatus v5 with
              | error e => rw [h6] at h; cases h
              | ok s =>
                rw [h6] at h; dsimp only at h
                cases h
                constructor
                · intro k hk
                  have o1 := (requireField_ok_iff r "name" v1).mp h1
                  have o2 := (requireField_ok_iff r "description" v2).mp h2
                  have o3 := (requireField_ok_iff r "category" v3).mp h3
                  have o4 := (requireField_ok_iff r "currency" v4).mp h4
                  have o5 := (requireField_ok_iff r "status" v5).mp h5
                  simp only [accountRequiredFields, List.mem_cons,
                    List.mem_singleton] at hk
                  rcases hk with rfl | rfl | rfl | rfl | rfl | hk
                  · rw [o1]; simp
                  · rw [o2]; simp
                  · rw [o3]; simp
                  · rw [o4]; simp
                  · rw [o5]; simp
                  · exact absurd hk (List.not_mem_nil k)
                · intro hidnone
                  rw [hidnone] at hid
                  have hz : pyIntOf ((none : Option PyVal).getD (.int 0))
                      = Except.ok (0 : Int) := rfl
                  rw [hz] at hid
                  cases hid
                  rfl

/-- C8 counterexample: a record with every required field present still makes
`AccountMapper.to_entity` fail — `Status("pending")` raises `ValueError` — so
"to_entity never fails except when a required field is missing" is false. -/
theorem account_to_entity_counterexample :
    (∀ k ∈ accountRequiredFields,
      recordGet [("name", .str "checking"), ("description", .str "d"),
        ("category", .str "cash"), ("currency", .str "USD"),
        ("status", .str "pending")] k ≠ none) ∧
    accountToEntity [("name", .str "checking"), ("description", .str "d"),
        ("category", .str "cash"), ("currency", .str "USD"),
        ("status", .str "pending")]
      = .error (.valueError "is not a valid Status") := by
  constructor
  · decide
  · rfl

/-- C8 amended: `AccountMapper.to_entity` fails only on malformed input — a
missing required field (name, description, category, currency, status;
KeyError, the code's realization of the spec's MappingError) or a present
field whose value a conversion rejects (`int` on a malformed id, `Status` on
an invalid status) — and never substitutes a default for a required field;
only a missing `id` is defaulted (to 0) instead of failing. -/
theorem account_to_entity_malformed (r : Record) :
    ((∃ k ∈ accountRequiredFields, recordGet r k = none) →
      ∃ e, accountToEntity r = .error e) ∧
    ((∀ k ∈ accountRequiredFields, recordGet r k ≠ none) →
      (pyIntOf ((recordGet r "id").getD (.int 0))).isOk = true →
      Option.all (fun v => (pyStatus v).isOk) (recordGet r "status") = true →
      ∃ a, accountToEntity r = .ok a) ∧
    (recordGet r "id" = none →
      ∀ a, accountToEntity r = .ok a → a.id = 0) := by
  refine ⟨?_, ?_, ?_⟩
  · rintro ⟨k, hk, hnone⟩
    cases hres : accountToEntity r with
    | error e => exact ⟨e, rfl⟩
    | ok a =>
      exact absurd hnone ((accountToEntity_ok_implies r a hres).1 k hk)
  · intro hall hid hstat
    unfold accountToEntity
    cases h0 : pyIntOf ((recordGet r "id").getD (.int 0)) with
    | error e =>
      rw [h0] at hid
      exact absurd hid (by simp [Except.isOk, Except.toBool])
    | ok n =>
      obtain ⟨v1, o1⟩ := Option.ne_none_iff_exists'.mp
        (hall "name" (by simp [accountRequiredFields]))
      obtain ⟨v2, o2⟩ := Option.ne_none_iff_exists'.mp
        (hall "description" (by simp [accountRequiredFields]))
      obtain ⟨v3, o3⟩ := Option.ne_none_iff_exists'.mp
        (hall "category" (by simp [accountRequiredFields]))
      obtain ⟨v4, o4⟩ := Option.ne_none_iff_exists'.mp
        (hall "currency" (by simp [accountRequiredFields]))
      obtain ⟨v5, o5⟩ := Option.ne_none_iff_exists'.mp
        (hall "status" (by simp [accountRequiredFields]))
      dsimp only
      rw [(requireField_ok_iff r "name" v1).mpr o1]; dsimp only
      rw [(requireField_ok_iff r "description" v2).mpr o2]; dsimp only
      rw [(requireField_ok_iff r "category" v3).mpr o3]; dsimp only
      rw [(requireField_ok_iff r "currency" v4).mpr o4]; dsimp only
      rw [(requireField_ok_iff r "status" v5).mpr o5]; dsimp only
      rw [o5] at hstat
      simp only [Option.all] at hstat
      cases h6 : pyStatus v5 with
      | error e =>
        rw [h6] at hstat
        exact absurd hstat (by simp [Except.isOk, Except.toBool])
      | ok s =>
        exact ⟨⟨n, v1, v2, v3, v4, s⟩, rfl⟩
  · intro hidnone a hok
    exact (accountToEntity_ok_implies r a hok).2 hidnone

/-- Witness for the amended C8: a record missing "name" fails; a complete
well-formed record maps; a record without "id" maps with id 0. -/
theorem account_to_entity_malformed_witness :
    (∃ k ∈ accountRequiredFields,
      recordGet [("description", PyVal.str "d"), ("category", PyVal.str "cash"),
        ("currency", PyVal.str "USD"), ("status", PyVal.str "active")] k = none) ∧
    (∃ e, accountToEntity [("description", PyVal.str "d"),
        ("category", PyVal.str "cash"), ("currency", PyVal.str "USD"),
        ("status", PyVal.str "active")] = .error e) ∧
    (∃ a, accountToEntity [("id", PyVal.int 7), ("name", PyVal.str "checking"),
        ("description", PyVal.str "d"), ("category", PyVal.str "cash"),
        ("currency", PyVal.str "USD"), ("status", PyVal.str "active")] = .ok a) ∧
    (∀ a, accountToEntity [("name", PyVal.str "checking"),
        ("description", PyVal.str "d"), ("category", PyVal.str "cash"),
        ("currency", PyVal.str "USD"), ("status", PyVal.str "active")] = .ok a →
      a.id = 0) :=
  ⟨⟨"name", by decide⟩,
   (account_to_entity_malformed [("description", PyVal.str "d"),
      ("category", PyVal.str "cash"), ("currency", PyVal.str "USD"),
      ("status", PyVal.str "active")]).1 ⟨"name", by decide⟩,
   (account_to_entity_malformed [("id", PyVal.int 7), ("name", PyVal.str "checking"),
      ("description", PyVal.str "d"), ("category", PyVal.str "cash"),
      ("currency", PyVal.str "USD"), ("status", PyVal.str "active")]).2.1
     (by decide) (by decide) (by rfl),
   (account_to_entity_malformed [("name", PyVal.str "checking"),
      ("description", PyVal.str "d"), ("category", PyVal.str "cash"),
      ("currency", PyVal.str "USD"), ("status", PyVal.str "active")]).2.2
     (by decide)⟩

end NWTrack
